import Mathlib

/-!
Verification development for the `proc` program of `rs-asana-kanban-metrics`
(`src/bin/proc.rs`).  The program reconstructs, per project, the timeline of
"task entered state" events from Asana activity logs (`get_task_events`,
`parse_section_changed`) and replays each project's event list through a
weekly period-rollover accumulator (`proc_data`), emitting per-period state
occupancy counts and p90 dwell durations (`p90`).

Timestamps (`chrono::DateTime<Utc>`) are modelled as `Int` seconds since the
Unix epoch; `Date` values stored in snapshots are midnight-aligned second
timestamps.  Rust `HashMap`s are modelled as association lists; all the
observable quantities the claims mention (counts, sample multisets after
sorting, per-key lookups) are independent of hash-iteration order.
-/

/-- Association-list lookup, modelling `HashMap::get`. -/
def alookup {β : Type} : List (String × β) → String → Option β
  | [], _ => none
  | (k, v) :: rest, key => if k = key then some v else alookup rest key

/-- Association-list insert/overwrite (no old-value return), modelling the
write part of `HashMap::insert` / `entry().or_insert()` followed by mutation. -/
def aset {β : Type} : List (String × β) → String → β → List (String × β)
  | [], key, val => [(key, val)]
  | (k, v) :: rest, key, val =>
      if k = key then (k, val) :: rest else (k, v) :: aset rest key val

/-- `*state_taskcounts.get(k).unwrap_or(&0)` (proc.rs line 234). -/
def getCount (m : List (String × Nat)) (k : String) : Nat :=
  (alookup m k).getD 0

/-- `let count = state_taskcounts.entry(sname).or_insert_with(|| 0); *count += 1;`
(proc.rs lines 222-223). -/
def bump (m : List (String × Nat)) (k : String) : List (String × Nat) :=
  aset m k (getCount m k + 1)

/-- `state_period_dwelltimes.entry(sname).or_insert_with(|| Vec::new()).push(d)`
(proc.rs lines 226-229 and 281-284). -/
def pushDwell (m : List (String × List Nat)) (k : String) (d : Nat) :
    List (String × List Nat) :=
  aset m k ((alookup m k).getD [] ++ [d])

/-- Model of Rust's `i64 as u64` cast applied to a number of seconds
(`.num_seconds() as u64`, proc.rs lines 225 and 280). -/
def toU64 (x : Int) : Nat := (x % (2 ^ 64)).toNat

/-! ## Transition Parser (`parse_section_changed`, proc.rs lines 450-461)

The regex is `^moved this Task from "([^"]+?)" to "([^"]+?)" in (.+)$` with
Rust `regex` default flags (`.` matches anything but `'\n'`, `$` is end of
haystack).  Because the first two groups cannot contain `'"'` and are each
followed by a literal `'"'`, the match, when it exists, is unique: group 1
and group 2 are the maximal quote-free runs after the opening quotes, and
group 3 is the entire remainder, which must be non-empty and `'\n'`-free.
`Regex::captures(..).unwrap()` panics when the text does not match; the model
returns `none` there. -/

/-- Consume an expected literal prefix (first argument) from the character
list, or fail. -/
def stripLit : List Char → List Char → Option (List Char)
  | [], s => some s
  | _ :: _, [] => none
  | c :: p, d :: s => if d = c then stripLit p s else none

/-- Consume a regex group `[^"]+?` that is followed by a literal `'"'` in the
pattern: the (necessarily maximal) non-empty run of non-quote characters.
The returned remainder still starts at the closing quote. -/
def takeGroup (l : List Char) : Option (List Char × List Char) :=
  let pre := l.takeWhile (fun c => c ≠ '"')
  if pre.isEmpty then none
  else some (pre, l.dropWhile (fun c => c ≠ '"'))

/-- `parse_section_changed`: extract `(sname_from, sname_to, pname)` from a
story text, `none` modelling the `unwrap()` panic on a failed match. -/
def parse_section_changed (text : String) : Option (String × String × String) :=
  match stripLit ("moved this Task from \"").data text.data with
  | none => none
  | some r1 =>
    match takeGroup r1 with
    | none => none
    | some (g1, r2) =>
      match stripLit ("\" to \"").data r2 with
      | none => none
      | some r3 =>
        match takeGroup r3 with
        | none => none
        | some (g2, r4) =>
          match stripLit ("\" in ").data r4 with
          | none => none
          | some g3 =>
            if g3 ≠ [] ∧ g3.all (fun c => c ≠ '\n') then
              some (String.mk g1, String.mk g2, String.mk g3)
            else none

/-! ## Timeline Reconstructor (`get_task_events`, proc.rs lines 401-448) -/

/-- One activity-log entry (`AsanaStory`): creation time, subtype tag, text. -/
structure Story where
  created_at : Int
  resource_subtype : String
  text : String
deriving DecidableEq

/-- One reconstructed workflow event `(event_time, task gid, state)`
(the tuples stored in `pname2t_events`). -/
structure WEvent where
  time : Int
  task : String
  sname : String
deriving DecidableEq

/-- Insert into an ascending-sorted list, before the first element that is
not `le`-smaller.  Used to build a stable, kernel-computable sort. -/
def insertAsc {α : Type} (le : α → α → Bool) (x : α) : List α → List α
  | [] => [x]
  | y :: ys => if le x y then x :: y :: ys else y :: insertAsc le x ys

/-- Stable insertion sort: an earlier element is inserted before later equal
elements, so it produces the same list as any stable sort for the same total
preorder. -/
def stableSortBy {α : Type} (le : α → α → Bool) : List α → List α
  | [] => []
  | x :: xs => insertAsc le x (stableSortBy le xs)

/-- Stable sort of a project's event list by timestamp, modelling
`events.sort_by_cached_key(|entry| entry.0)` (proc.rs line 443), which is a
stable sort keyed on the event time only. -/
def sortEvents (l : List WEvent) : List WEvent :=
  stableSortBy (fun a b => decide (a.time ≤ b.time)) l

/-- The body of the story loop (proc.rs lines 414-432): a story with a
subtype other than `"section_changed"` is skipped; a `section_changed` story
is parsed (parse failure = fatal `unwrap` panic = `none`); transitions naming
an untracked project are dropped; otherwise, if the project's event vector is
empty a from-state event at the task's creation time is synthesized, and the
to-state event is appended. -/
def proc_story (pnames : List String) (task_created_at : Int) (task_gid : String)
    (m : List (String × List WEvent)) (story : Story) :
    Option (List (String × List WEvent)) :=
  if story.resource_subtype = "section_changed" then
    match parse_section_changed story.text with
    | none => none
    | some (sname_from, sname_to, pname) =>
      if pname ∈ pnames then
        let events := (alookup m pname).getD []
        let events :=
          if events.isEmpty then events ++ [⟨task_created_at, task_gid, sname_from⟩]
          else events
        let events := events ++ [⟨story.created_at, task_gid, sname_to⟩]
        some (aset m pname events)
      else some m
  else some m

/-- The body of the per-membership synthesis loop (proc.rs lines 437-444):
for each project the task is currently a member of, if the project's event
vector is empty, synthesize a creation event into the task's current state;
then sort the project's vector by timestamp. -/
def synth_step (task_created_at : Int) (task_gid : String)
    (m : List (String × List WEvent)) (mem : String × String) :
    List (String × List WEvent) :=
  let events := (alookup m mem.1).getD []
  let events :=
    if events.isEmpty then events ++ [⟨task_created_at, task_gid, mem.2⟩]
    else events
  aset m mem.1 (sortEvents events)

/-- Process one `AsanaTaskStories` entry (proc.rs lines 410-444): look up the
task's creation time (`tgid2asana_task[task_gid]`, panic = `none` if absent),
run the story loop, then the synthesis loop over the task's current
`(project, state)` memberships (`tgid2pname2sname[task_gid]`, panic = `none`
if absent). -/
def proc_task (pnames : List String) (tgid2created_at : List (String × Int))
    (tgid2pname2sname : List (String × List (String × String)))
    (m : List (String × List WEvent)) (ts : String × List Story) :
    Option (List (String × List WEvent)) :=
  match alookup tgid2created_at ts.1 with
  | none => none
  | some task_created_at =>
    match ts.2.foldlM (proc_story pnames task_created_at ts.1) m with
    | none => none
    | some m1 =>
      match alookup tgid2pname2sname ts.1 with
      | none => none
      | some memberships =>
        some (memberships.foldl (synth_step task_created_at ts.1) m1)

/-- `get_task_events`: build the per-project event lists from all task story
logs.  `none` models any of the function's panics (missing task, missing
membership map entry, or an unparseable `section_changed` story). -/
def get_task_events (pnames : List String) (tgid2created_at : List (String × Int))
    (tgid2pname2sname : List (String × List (String × String)))
    (task_stories : List (String × List Story)) :
    Option (List (String × List WEvent)) :=
  task_stories.foldlM (proc_task pnames tgid2created_at tgid2pname2sname) []

/-! ## Period Aggregator (the per-project loop of `proc_data`, proc.rs 196-301) -/

/-- `PeriodCounts` (proc.rs 143-148): the period's start date (midnight-aligned
second timestamp), the occupancy counts of the configured `cfd_states` in
configured order, and the period's done-count. -/
structure PeriodCounts where
  date : Int
  cfd_state_counts : List Nat
  done_count : Nat
deriving DecidableEq

/-- `PeriodDurations` (proc.rs 150-154): the period's start date and the p90
dwell-time in seconds of each configured state, in configured order. -/
structure PeriodDurations where
  date : Int
  p90_duration_seconds : List Nat
deriving DecidableEq

/-- Sort a dwell-sample vector ascending (`vec.sort_unstable()`, proc.rs 250);
on naturals every sort produces the same list, so instability is
unobservable. -/
def sortNat (l : List Nat) : List Nat :=
  stableSortBy (fun a b => decide (a ≤ b)) l

/-- `p90` (proc.rs 308-311): nearest-rank p90 of an ascending-sorted sample
vector, `vec[((vec.len() - 1) as f64 * 0.9) as usize]`.  The `f64` index
computation equals the exact `floor ((n - 1) * 9 / 10)` for every vector
length representable in an `f64` (the relative error of `0.9_f64` is below
half an ulp), so the index is modelled as the `Nat` division `9 * (n-1) / 10`.
On an empty vector the source panics (`len() - 1` underflows and `nth`
returns `None`); the total model returns the default `0` there — the caller
never invokes it on an empty vector (claim C10). -/
def p90 (vec : List Nat) : Nat :=
  vec.getD (9 * (vec.length - 1) / 10) 0

/-- One week in seconds (`chrono::Duration::weeks(1)`). -/
def week : Int := 604800

/-- `Utc.isoywd(horizon.year(), horizon.week(), Weekday::Mon).and_hms(0,0,0)`
(proc.rs 209-211): the Monday 00:00:00 UTC of the ISO week containing the
horizon, i.e. the greatest Monday-midnight timestamp not exceeding it.
Day 0 (1970-01-01) was a Thursday, so day `d` is a Monday iff
`(d + 3) % 7 = 0`. -/
def monday_align (t : Int) : Int :=
  ((t / 86400) - ((t / 86400) + 3) % 7) * 86400

/-- The aggregator state for one project: the mutable variables of the
`proc_data` loop (proc.rs 193-214) together with the two output tables. -/
structure AggState where
  task_latest_state : List (String × String × Int)
  state_taskcounts : List (String × Nat)
  state_period_dwelltimes : List (String × List Nat)
  done_count : Nat
  start_of_period : Int
  start_of_next_period : Int
  cfd_period_counts : List PeriodCounts
  cfd_period_durations : List PeriodDurations
deriving DecidableEq

/-- The recount half of the boundary loop (proc.rs 221-223): bump each
tracked task's current state in the persistent `state_taskcounts` map.
The source updates both maps in one pass over `task_latest_state.values()`;
since the two maps are distinct this is equivalent to two passes. -/
def boundary_counts (tl : List (String × String × Int))
    (m : List (String × Nat)) : List (String × Nat) :=
  tl.foldl (fun m e => bump m e.2.1) m

/-- The dwell half of the boundary loop (proc.rs 225-229): for each tracked
task, append the elapsed seconds from its state-entry time to the boundary
`b` into its state's dwell-sample vector. -/
def boundary_dwell (b : Int) (tl : List (String × String × Int))
    (m : List (String × List Nat)) : List (String × List Nat) :=
  tl.foldl (fun m e => pushDwell m e.2.1 (toU64 (b - e.2.2))) m

/-- The `PeriodCounts` record emitted at a boundary (proc.rs 232-240). -/
def emitted_counts (cfd_states : List String) (s : AggState) : PeriodCounts :=
  ⟨s.start_of_period,
   cfd_states.map (fun k => getCount (boundary_counts s.task_latest_state s.state_taskcounts) k),
   s.done_count⟩

/-- The `PeriodDurations` record emitted at a boundary (proc.rs 243-259). -/
def emitted_durations (cfd_states : List String) (s : AggState) : PeriodDurations :=
  ⟨s.start_of_period,
   cfd_states.map (fun k =>
     match alookup (boundary_dwell s.start_of_next_period s.task_latest_state
         s.state_period_dwelltimes) k with
     | some v => p90 (sortNat v)
     | none => 0)⟩

/-- One iteration of the `while at >= start_of_next_period` boundary loop
(proc.rs 218-277): recount occupancy and synthesize boundary dwell samples,
emit the snapshot and duration rows, clear the dwell samples and the
done-count (`state_taskcounts` is NOT cleared), and advance the period by one
week. -/
def roll_step (cfd_states : List String) (s : AggState) : AggState :=
  { task_latest_state := s.task_latest_state,
    state_taskcounts := boundary_counts s.task_latest_state s.state_taskcounts,
    state_period_dwelltimes := [],
    done_count := 0,
    start_of_period := s.start_of_period + week,
    start_of_next_period := s.start_of_next_period + week,
    cfd_period_counts := s.cfd_period_counts ++ [emitted_counts cfd_states s],
    cfd_period_durations := s.cfd_period_durations ++ [emitted_durations cfd_states s] }

/-- Fuel-indexed form of the boundary `while` loop.  The fuel only bounds the
number of iterations; `rollover_go_congr` below shows the result does not
depend on it once it is at least `(at + week - start_of_next_period).toNat`,
and `rollover_eq` recovers the source's loop equation. -/
def rollover_go (cfd_states : List String) : Nat → Int → AggState → AggState
  | 0, _, s => s
  | fuel + 1, t, s =>
      if s.start_of_next_period ≤ t then rollover_go cfd_states fuel t (roll_step cfd_states s)
      else s

/-- The boundary `while` loop (proc.rs 218-277): roll periods over until the
event time `t` falls before `start_of_next_period`. -/
def rollover (cfd_states : List String) (t : Int) (s : AggState) : AggState :=
  rollover_go cfd_states (t + week - s.start_of_next_period).toNat t s

/-- Applying one event inside the current period (proc.rs 279-288): record the
dwell time in the task's previous state if any, set the task's tracked state,
and count transitions into a done state. -/
def apply_event (done_states : List String) (e : WEvent) (s : AggState) : AggState :=
  let old := alookup s.task_latest_state e.task
  { s with
    task_latest_state := aset s.task_latest_state e.task (e.sname, e.time),
    state_period_dwelltimes :=
      match old with
      | some (old_state, old_at) =>
          pushDwell s.state_period_dwelltimes old_state (toU64 (e.time - old_at))
      | none => s.state_period_dwelltimes,
    done_count := if e.sname ∈ done_states then s.done_count + 1 else s.done_count }

/-- The body of the event loop (proc.rs 217-289): roll over any crossed
boundaries, then apply the event. -/
def agg_step (cfd_states done_states : List String) (s : AggState) (e : WEvent) :
    AggState :=
  apply_event done_states e (rollover cfd_states e.time s)

/-- The aggregator state at the top of the loop (proc.rs 196-214). -/
def init_agg (horizon : Int) : AggState :=
  { task_latest_state := [],
    state_taskcounts := [],
    state_period_dwelltimes := [],
    done_count := 0,
    start_of_period := monday_align horizon,
    start_of_next_period := monday_align horizon + week,
    cfd_period_counts := [],
    cfd_period_durations := [] }

/-- The whole per-project pass of `proc_data` (proc.rs 191-301): replay the
project's event list; the final state's `cfd_period_counts` and
`cfd_period_durations` are the tables stored in the project's `Cfd` output. -/
def proc_project (cfd_states done_states : List String) (horizon : Int)
    (events : List WEvent) : AggState :=
  events.foldl (agg_step cfd_states done_states) (init_agg horizon)

/-- Number of distinct tasks appearing in an event list. -/
def distinct_tasks (events : List WEvent) : Nat :=
  (events.map (fun e => e.task)).dedup.length

/-- Number of boundary-loop iterations triggered by an event at time `t` when
the next period starts at `next`. -/
def crossings (t next : Int) : Nat :=
  if t < next then 0 else ((t - next) / 604800).toNat + 1

/-- Number of tracked tasks whose last known state is `st`. -/
def tally (tl : List (String × String × Int)) (st : String) : Nat :=
  (tl.filter (fun e => e.2.1 = st)).length

/-- The boundary dwell samples that the rollover at boundary `b` synthesizes
for state `st`: one "still open" span per task currently tracked in `st`. -/
def boundary_samples (tl : List (String × String × Int)) (st : String) (b : Int) :
    List Nat :=
  (tl.filter (fun e => e.2.1 = st)).map (fun e => toU64 (b - e.2.2))

/-! ## Derived predicates and fixtures used in the claim statements -/

/-- Componentwise order on count vectors (reading past the end as 0). -/
def vec_le (v w : List Nat) : Prop := ∀ k, v.getD k 0 ≤ w.getD k 0

/-- Invariant: the emitted snapshot vectors are pairwise monotone, and each
is dominated by the configured projection of the current counter map. -/
def SnapInv (cfd : List String) (s : AggState) : Prop :=
  List.Pairwise vec_le (s.cfd_period_counts.map (fun pc => pc.cfd_state_counts))
  ∧ ∀ pc ∈ s.cfd_period_counts,
      vec_le pc.cfd_state_counts
        (cfd.map (fun k => getCount s.state_taskcounts k))

/-- Every dwell-sample vector present in the map is non-empty. -/
def DwellOK (s : AggState) : Prop :=
  ∀ p ∈ s.state_period_dwelltimes, p.2 ≠ []

/-- The aggregator state entering the second crossing of the C2 scenario:
task `a` tracked in `"S"` since 345600, empty dwell map, period
[345600, 950400). -/
def c2state : AggState :=
  ⟨[("a", ("S", 345600))], [], [], 0, 345600, 950400, [], []⟩

/-! ## Concrete runs deciding claims C1-C4 -/

/-- C1: the claimed occupancy conservation fails at the second emitted
snapshot.  One task `a` enters `"S"` at the horizon Monday (345600 =
1970-01-05T00:00:00Z) and enters `"T"` two weeks later; the triggering event
crosses two boundaries.  `state_taskcounts` is never cleared (proc.rs 264-268
clear only the dwell samples and `done_count`), so the second snapshot's
counts over all tracked states sum to 2, while only 1 distinct task has
appeared in the event stream before that boundary. -/
theorem claim_c1_code_bug :
    (proc_project ["S", "T"] [] 345600
        [⟨345600, "a", "S"⟩, ⟨1555200, "a", "T"⟩]).cfd_period_counts.map
          (fun pc => pc.cfd_state_counts) = [[1, 0], [2, 0]]
    ∧ distinct_tasks [⟨345600, "a", "S"⟩] = 1
    ∧ ¬ (((proc_project ["S", "T"] [] 345600
          [⟨345600, "a", "S"⟩, ⟨1555200, "a", "T"⟩]).cfd_period_counts.getD 1
            ⟨0, [], 0⟩).cfd_state_counts.sum
        = distinct_tasks [⟨345600, "a", "S"⟩]) := by
  refine ⟨by decide, by decide, by decide⟩

/-- C2, counterexample: one task `a` enters `"S"` at the horizon Monday and
enters `"T"` three weeks later, so the second event crosses three boundaries.
Three snapshot/duration pairs are emitted (that much of the claim holds), but
the two snapshots for the empty intervening periods do not carry occupancy
counts identical to the first ([2] and [3] versus [1], because
`state_taskcounts` is never cleared), and their `PeriodDurations` are not the
zero-sample default: each rollover iteration synthesizes a boundary dwell
sample per tracked task (proc.rs 225-229), giving p90 values 1209600 and
1814400. -/
theorem claim_c2_counterexample :
    ((proc_project ["S"] [] 345600
        [⟨345600, "a", "S"⟩, ⟨2160000, "a", "T"⟩]).cfd_period_counts.map
          (fun pc => pc.cfd_state_counts) = [[1], [2], [3]]
      ∧ (proc_project ["S"] [] 345600
          [⟨345600, "a", "S"⟩, ⟨2160000, "a", "T"⟩]).cfd_period_durations.map
            (fun pd => pd.p90_duration_seconds) = [[604800], [1209600], [1814400]])
    ∧ ¬ (((proc_project ["S"] [] 345600
            [⟨345600, "a", "S"⟩, ⟨2160000, "a", "T"⟩]).cfd_period_counts.getD 1
              ⟨0, [], 0⟩).cfd_state_counts
          = ((proc_project ["S"] [] 345600
            [⟨345600, "a", "S"⟩, ⟨2160000, "a", "T"⟩]).cfd_period_counts.getD 0
              ⟨0, [], 0⟩).cfd_state_counts
        ∧ ((proc_project ["S"] [] 345600
            [⟨345600, "a", "S"⟩, ⟨2160000, "a", "T"⟩]).cfd_period_durations.getD 1
              ⟨0, []⟩).p90_duration_seconds = [0]) := by
  refine ⟨⟨by decide, by decide⟩, by decide⟩

/-- C3: the from-state synthesis is keyed on the emptiness of the
project-wide event vector (`events.is_empty()`, proc.rs 426, where `events`
is `pname2t_events[pname]`), not on "first transition found for that task".
Tasks `a` (created at 100) and `b` (created at 200) each have one
`section_changed` story in project `P`; `b`'s first transition finds the
project vector non-empty, so the claimed synthesized event `(200, b, S1)` is
never appended — only three events result instead of four. -/
theorem claim_c3_code_bug :
    get_task_events ["P"] [("a", 100), ("b", 200)]
        [("a", [("P", "S2")]), ("b", [("P", "S2")])]
        [("a", [⟨1000, "section_changed", "moved this Task from \"S1\" to \"S2\" in P"⟩]),
         ("b", [⟨2000, "section_changed", "moved this Task from \"S1\" to \"S2\" in P"⟩])]
      = some [("P", [⟨100, "a", "S1"⟩, ⟨1000, "a", "S2"⟩, ⟨2000, "b", "S2"⟩])]
    ∧ ¬ (⟨200, "b", "S1"⟩ ∈
        [WEvent.mk 100 "a" "S1", ⟨1000, "a", "S2"⟩, ⟨2000, "b", "S2"⟩]) := by
  refine ⟨by decide, by decide⟩

/-- C4: the creation-synthesis for never-moved tasks is also keyed on the
emptiness of the project-wide vector (proc.rs 439).  Task `b` (created at
200) currently holds state `"Done"` in project `P` and has no transition
stories, but because task `a` already contributed events to `P`, nothing at
all is synthesized for `b` — the claim requires exactly the one event
`(200, b, Done)`. -/
theorem claim_c4_code_bug :
    get_task_events ["P"] [("a", 100), ("b", 200)]
        [("a", [("P", "S2")]), ("b", [("P", "Done")])]
        [("a", [⟨1000, "section_changed", "moved this Task from \"S1\" to \"S2\" in P"⟩]),
         ("b", [])]
      = some [("P", [⟨100, "a", "S1"⟩, ⟨1000, "a", "S2"⟩])]
    ∧ ([WEvent.mk 100 "a" "S1", ⟨1000, "a", "S2"⟩].filter
        (fun e => e.task = "b")) = []
    ∧ ¬ (⟨200, "b", "Done"⟩ ∈ [WEvent.mk 100 "a" "S1", ⟨1000, "a", "S2"⟩]) := by
  refine ⟨by decide, by decide, by decide⟩

/-! ## Association-list lemmas -/

theorem alookup_aset {β : Type} (m : List (String × β)) (k : String) (v : β)
    (k' : String) :
    alookup (aset m k v) k' = if k = k' then some v else alookup m k' := by
  induction m with
  | nil => by_cases h : k = k' <;> simp [aset, alookup, h]
  | cons p rest ih =>
    obtain ⟨a, b⟩ := p
    by_cases h1 : a = k
    · subst h1
      by_cases h2 : a = k' <;> simp [aset, alookup, h2]
    · simp only [aset, if_neg h1, alookup]
      by_cases h2 : a = k'
      · subst h2
        rw [if_pos rfl, if_neg (fun h : k = a => h1 h.symm), if_pos rfl]
      · simp [alookup, h2, ih]

theorem alookup_aset_self {β : Type} (m : List (String × β)) (k : String) (v : β) :
    alookup (aset m k v) k = some v := by
  simp [alookup_aset]

theorem mem_aset {β : Type} {m : List (String × β)} {k : String} {v : β}
    {p : String × β} (hp : p ∈ aset m k v) : p = (k, v) ∨ p ∈ m := by
  induction m with
  | nil => simpa [aset] using hp
  | cons q rest ih =>
    obtain ⟨a, b⟩ := q
    by_cases h1 : a = k
    · subst h1
      rcases (by simpa [aset] using hp : p = (a, v) ∨ p ∈ rest) with h | h
      · exact Or.inl h
      · exact Or.inr (List.mem_cons_of_mem _ h)
    · rcases (by simpa [aset, h1] using hp : p = (a, b) ∨ p ∈ aset rest k v) with h | h
      · exact Or.inr (by simp [h])
      · rcases ih h with h' | h'
        · exact Or.inl h'
        · exact Or.inr (List.mem_cons_of_mem _ h')

theorem getCount_bump (m : List (String × Nat)) (k k' : String) :
    getCount (bump m k) k' = getCount m k' + if k = k' then 1 else 0 := by
  unfold bump getCount
  rw [alookup_aset]
  by_cases h : k = k' <;> simp [h, getCount]

theorem getCount_boundary_counts (tl : List (String × String × Int))
    (m : List (String × Nat)) (st : String) :
    getCount (boundary_counts tl m) st = getCount m st + tally tl st := by
  induction tl generalizing m with
  | nil => simp [boundary_counts, tally]
  | cons e tl ih =>
    simp only [boundary_counts, List.foldl_cons] at *
    rw [ih, getCount_bump]
    by_cases h : e.2.1 = st
    · simp [tally, List.filter_cons, h]
      omega
    · simp [tally, List.filter_cons, h]

theorem alookup_pushDwell (m : List (String × List Nat)) (k : String) (d : Nat)
    (k' : String) :
    alookup (pushDwell m k d) k'
      = if k = k' then some ((alookup m k').getD [] ++ [d]) else alookup m k' := by
  unfold pushDwell
  rw [alookup_aset]
  by_cases h : k = k' <;> simp [h]

theorem getD_boundary_dwell (b : Int) (tl : List (String × String × Int))
    (m : List (String × List Nat)) (st : String) :
    (alookup (boundary_dwell b tl m) st).getD []
      = (alookup m st).getD [] ++ boundary_samples tl st b := by
  induction tl generalizing m with
  | nil => simp [boundary_dwell, boundary_samples]
  | cons e tl ih =>
    simp only [boundary_dwell, List.foldl_cons] at *
    rw [ih, alookup_pushDwell]
    by_cases h : e.2.1 = st <;>
      simp [boundary_samples, List.filter_cons, h]

theorem alookup_boundary_dwell_eq_none (b : Int) (tl : List (String × String × Int))
    (m : List (String × List Nat)) (st : String) :
    alookup (boundary_dwell b tl m) st = none
      ↔ (alookup m st = none ∧ boundary_samples tl st b = []) := by
  induction tl generalizing m with
  | nil => simp [boundary_dwell, boundary_samples]
  | cons e tl ih =>
    simp only [boundary_dwell, List.foldl_cons] at *
    rw [ih, alookup_pushDwell]
    by_cases h : e.2.1 = st <;>
      simp [boundary_samples, List.filter_cons, h]

/-! ## Rollover loop lemmas -/

@[simp]
theorem roll_step_task_latest (c : List String) (s : AggState) :
    (roll_step c s).task_latest_state = s.task_latest_state := rfl

@[simp]
theorem roll_step_start_of_period (c : List String) (s : AggState) :
    (roll_step c s).start_of_period = s.start_of_period + week := rfl

@[simp]
theorem roll_step_start_of_next (c : List String) (s : AggState) :
    (roll_step c s).start_of_next_period = s.start_of_next_period + week := rfl

@[simp]
theorem roll_step_dwell (c : List String) (s : AggState) :
    (roll_step c s).state_period_dwelltimes = [] := rfl

@[simp]
theorem roll_step_done (c : List String) (s : AggState) :
    (roll_step c s).done_count = 0 := rfl

@[simp]
theorem roll_step_counts (c : List String) (s : AggState) :
    (roll_step c s).state_taskcounts
      = boundary_counts s.task_latest_state s.state_taskcounts := rfl

@[simp]
theorem roll_step_period_counts (c : List String) (s : AggState) :
    (roll_step c s).cfd_period_counts
      = s.cfd_period_counts ++ [emitted_counts c s] := rfl

@[simp]
theorem roll_step_period_durations (c : List String) (s : AggState) :
    (roll_step c s).cfd_period_durations
      = s.cfd_period_durations ++ [emitted_durations c s] := rfl

theorem rollover_go_congr (c : List String) (t : Int) :
    ∀ (f₁ f₂ : Nat) (s : AggState),
      (t + week - s.start_of_next_period).toNat ≤ f₁ →
      (t + week - s.start_of_next_period).toNat ≤ f₂ →
      rollover_go c f₁ t s = rollover_go c f₂ t s := by
  intro f₁
  induction f₁ with
  | zero =>
    intro f₂ s h1 _
    have hlt : ¬ s.start_of_next_period ≤ t := by
      simp only [week] at h1; omega
    cases f₂ with
    | zero => rfl
    | succ f₂ => simp [rollover_go, hlt]
  | succ f₁ ih =>
    intro f₂ s h1 h2
    cases f₂ with
    | zero =>
      have hlt : ¬ s.start_of_next_period ≤ t := by
        simp only [week] at h2; omega
      simp [rollover_go, hlt]
    | succ f₂ =>
      simp only [rollover_go]
      by_cases hc : s.start_of_next_period ≤ t
      · rw [if_pos hc, if_pos hc]
        apply ih
        · simp only [roll_step_start_of_next, week] at *; omega
        · simp only [roll_step_start_of_next, week] at *; omega
      · rw [if_neg hc, if_neg hc]

/-- The fuelled rollover satisfies the source's `while` loop equation. -/
theorem rollover_eq (c : List String) (t : Int) (s : AggState) :
    rollover c t s
      = if s.start_of_next_period ≤ t then rollover c t (roll_step c s) else s := by
  unfold rollover
  by_cases hc : s.start_of_next_period ≤ t
  · rw [if_pos hc]
    have hm : (t + week - s.start_of_next_period).toNat
        = ((t + week - s.start_of_next_period).toNat - 1) + 1 := by
      simp only [week] at *; omega
    rw [hm]
    simp only [rollover_go, if_pos hc]
    apply rollover_go_congr
    · simp only [roll_step_start_of_next, week] at *; omega
    · exact Nat.le_refl _
  · rw [if_neg hc]
    cases hf : (t + week - s.start_of_next_period).toNat with
    | zero => rfl
    | succ k => simp [rollover_go, hc]

theorem rollover_go_pres {P : AggState → Prop} (c : List String)
    (hstep : ∀ s, P s → P (roll_step c s)) :
    ∀ (f : Nat) (t : Int) (s : AggState), P s → P (rollover_go c f t s) := by
  intro f
  induction f with
  | zero => intro t s h; exact h
  | succ f ih =>
    intro t s h
    simp only [rollover_go]
    split
    · exact ih t _ (hstep _ h)
    · exact h

theorem rollover_pres {P : AggState → Prop} (c : List String) (t : Int) (s : AggState)
    (hstep : ∀ s, P s → P (roll_step c s)) (h : P s) : P (rollover c t s) :=
  rollover_go_pres c hstep _ t s h

@[simp]
theorem apply_event_period_counts (d : List String) (e : WEvent) (s : AggState) :
    (apply_event d e s).cfd_period_counts = s.cfd_period_counts := rfl

@[simp]
theorem apply_event_period_durations (d : List String) (e : WEvent) (s : AggState) :
    (apply_event d e s).cfd_period_durations = s.cfd_period_durations := rfl

@[simp]
theorem apply_event_start_of_period (d : List String) (e : WEvent) (s : AggState) :
    (apply_event d e s).start_of_period = s.start_of_period := rfl

@[simp]
theorem apply_event_start_of_next (d : List String) (e : WEvent) (s : AggState) :
    (apply_event d e s).start_of_next_period = s.start_of_next_period := rfl

@[simp]
theorem apply_event_task_latest (d : List String) (e : WEvent) (s : AggState) :
    (apply_event d e s).task_latest_state
      = aset s.task_latest_state e.task (e.sname, e.time) := rfl

@[simp]
theorem apply_event_counts (d : List String) (e : WEvent) (s : AggState) :
    (apply_event d e s).state_taskcounts = s.state_taskcounts := rfl

/-! ## Claim C5: period alignment and single-boundary emission -/

/-- C5: the first period starts at the Monday 00:00:00 UTC of the horizon's
ISO week (`monday_align` is midnight-aligned, falls on a Monday — day index
`d` is a Monday iff `(d + 3) % 7 = 0` — and is the greatest such instant not
after the horizon) and ends 7 days later; and an event whose timestamp
exactly equals `start_of_next_period` triggers exactly one rollover, emitting
exactly one snapshot dated with the closed period's start, before the event
is applied (afterwards the task is tracked in the event's state). -/
theorem claim_c5 (cfd done : List String) (h : Int) (s : AggState) (e : WEvent) :
    ((init_agg h).start_of_period = monday_align h
      ∧ (init_agg h).start_of_next_period = monday_align h + 7 * 86400
      ∧ monday_align h % 86400 = 0
      ∧ (monday_align h / 86400 + 3) % 7 = 0
      ∧ monday_align h ≤ h
      ∧ h < monday_align h + 7 * 86400)
    ∧ (e.time = s.start_of_next_period →
        (agg_step cfd done s e).cfd_period_counts
            = s.cfd_period_counts ++ [emitted_counts cfd s]
          ∧ (emitted_counts cfd s).date = s.start_of_period
          ∧ (agg_step cfd done s e).start_of_next_period
              = s.start_of_next_period + week
          ∧ alookup (agg_step cfd done s e).task_latest_state e.task
              = some (e.sname, e.time)) := by
  constructor
  · refine ⟨rfl, ?_, ?_, ?_, ?_, ?_⟩
    · show monday_align h + week = monday_align h + 7 * 86400
      norm_num [week]
    · unfold monday_align
      exact Int.mul_emod_left _ _
    · unfold monday_align
      rw [Int.mul_ediv_cancel _ (by norm_num : (86400 : Int) ≠ 0)]
      have he : h / 86400 - (h / 86400 + 3) % 7 + 3
          = (h / 86400 + 3) - (h / 86400 + 3) % 7 := by ring
      rw [he, Int.sub_emod, Int.emod_emod_of_dvd _ (dvd_refl 7), sub_self,
        Int.zero_emod]
    · unfold monday_align
      have hd := Int.ediv_add_emod h 86400
      have hm1 : 0 ≤ h % 86400 := Int.emod_nonneg h (by norm_num)
      have hr1 : 0 ≤ (h / 86400 + 3) % 7 := Int.emod_nonneg _ (by norm_num)
      have hr2 : (h / 86400 + 3) % 7 < 7 :=
        Int.emod_lt_of_pos _ (by norm_num)
      nlinarith [hr1, hr2, hm1, hd]
    · unfold monday_align
      have hd := Int.ediv_add_emod h 86400
      have hm2 : h % 86400 < 86400 := Int.emod_lt_of_pos h (by norm_num)
      have hr2 : (h / 86400 + 3) % 7 < 7 :=
        Int.emod_lt_of_pos _ (by norm_num)
      nlinarith [hr2, hm2, hd]
  · intro he
    have hroll : rollover cfd e.time s = roll_step cfd s := by
      rw [rollover_eq, if_pos (he ▸ Int.le_refl _), rollover_eq, if_neg ?_]
      simp only [roll_step_start_of_next, week]
      omega
    refine ⟨?_, rfl, ?_, ?_⟩
    · simp [agg_step, hroll]
    · simp [agg_step, hroll]
    · simp only [agg_step, hroll, apply_event_task_latest]
      exact alookup_aset_self _ _ _

/-- Witness for C5 at the spec's own instance: horizon 1704067200
(Mon 2024-01-01T00:00:00Z, already Monday-aligned) and an event exactly at
1704672000 (2024-01-08T00:00:00Z). -/
theorem claim_c5_witness :
    ((init_agg 1704067200).start_of_period = monday_align 1704067200
      ∧ (init_agg 1704067200).start_of_next_period = monday_align 1704067200 + 7 * 86400
      ∧ monday_align 1704067200 % 86400 = 0
      ∧ (monday_align 1704067200 / 86400 + 3) % 7 = 0
      ∧ monday_align 1704067200 ≤ 1704067200
      ∧ (1704067200 : Int) < monday_align 1704067200 + 7 * 86400)
    ∧ ((agg_step ["S"] [] (init_agg 1704067200) ⟨1704672000, "t", "S"⟩).cfd_period_counts
          = (init_agg 1704067200).cfd_period_counts
            ++ [emitted_counts ["S"] (init_agg 1704067200)]
        ∧ (emitted_counts ["S"] (init_agg 1704067200)).date
            = (init_agg 1704067200).start_of_period
        ∧ (agg_step ["S"] [] (init_agg 1704067200) ⟨1704672000, "t", "S"⟩).start_of_next_period
            = (init_agg 1704067200).start_of_next_period + week
        ∧ alookup (agg_step ["S"] [] (init_agg 1704067200)
              ⟨1704672000, "t", "S"⟩).task_latest_state "t"
            = some ("S", 1704672000)) :=
  ⟨(claim_c5 ["S"] [] 1704067200 (init_agg 1704067200) ⟨1704672000, "t", "S"⟩).1,
   (claim_c5 ["S"] [] 1704067200 (init_agg 1704067200) ⟨1704672000, "t", "S"⟩).2
     (by decide)⟩

/-! ## Claim C6: the percentile calculator -/

/-- C6: on a non-empty ascending-sorted sample list, `p90` returns the
element at 0-based index `floor ((n - 1) * 0.9)` (stated via the exact
rational `9 / 10`), and in particular index 0 for n = 1 and n = 2, index 8
for n = 10 and index 9 for n = 11. -/
theorem claim_c6 (v : List Nat) (hne : v ≠ []) (_hs : List.Sorted (· ≤ ·) v) :
    p90 v = v.getD (Int.toNat ⌊((v.length : ℚ) - 1) * (9 / 10)⌋) 0
    ∧ (v.length = 1 → p90 v = v.getD 0 0)
    ∧ (v.length = 2 → p90 v = v.getD 0 0)
    ∧ (v.length = 10 → p90 v = v.getD 8 0)
    ∧ (v.length = 11 → p90 v = v.getD 9 0) := by
  have hn : 1 ≤ v.length := List.length_pos.mpr hne
  refine ⟨?_, ?_, ?_, ?_, ?_⟩
  · have h1 : ((v.length : ℚ) - 1) * (9 / 10)
        = ((9 * (v.length - 1) : ℕ) : ℚ) / ((10 : ℕ) : ℚ) := by
      push_cast [Nat.cast_sub hn]
      ring
    have h2 : Int.toNat ⌊((v.length : ℚ) - 1) * (9 / 10)⌋
        = 9 * (v.length - 1) / 10 := by
      rw [h1, Rat.floor_natCast_div_natCast, ← Int.natCast_div, Int.toNat_natCast]
    rw [h2]
    rfl
  · intro h; unfold p90; rw [h]
  · intro h; unfold p90; rw [h]
  · intro h; unfold p90; rw [h]
  · intro h; unfold p90; rw [h]

/-- Witness for C6 on the sorted ten-sample list `[0, …, 9]`: p90 picks
index 8. -/
theorem claim_c6_witness :
    ([0, 1, 2, 3, 4, 5, 6, 7, 8, 9] : List Nat) ≠ []
    ∧ List.Sorted (· ≤ ·) ([0, 1, 2, 3, 4, 5, 6, 7, 8, 9] : List Nat)
    ∧ p90 [0, 1, 2, 3, 4, 5, 6, 7, 8, 9] = 8 := by
  have h := claim_c6 [0, 1, 2, 3, 4, 5, 6, 7, 8, 9] (by decide) (by decide)
  exact ⟨by decide, by decide, (h.2.2.2.1 (by decide)).trans (by decide)⟩

/-! ## Claim C7: skip vs fatal failure in the story loop -/

theorem proc_story_poison (pnames : List String) (created : Int) (gid : String)
    (m : List (String × List WEvent)) (st : Story)
    (h1 : st.resource_subtype = "section_changed")
    (h2 : parse_section_changed st.text = none) :
    proc_story pnames created gid m st = none := by
  simp [proc_story, h1, h2]

theorem foldlM_stories_poison (pnames : List String) (created : Int) (gid : String)
    (st : Story) (h1 : st.resource_subtype = "section_changed")
    (h2 : parse_section_changed st.text = none) :
    ∀ (stories : List Story) (m : List (String × List WEvent)), st ∈ stories →
      stories.foldlM (proc_story pnames created gid) m = none := by
  intro stories
  induction stories with
  | nil => intro m hmem; cases hmem
  | cons a rest ih =>
    intro m hmem
    rcases List.mem_cons.mp hmem with h | h
    · subst h
      simp [List.foldlM_cons, proc_story_poison pnames created gid m st h1 h2]
    · cases hs : proc_story pnames created gid m a
      · simp [List.foldlM_cons, hs]
      · simp only [List.foldlM_cons, hs, Option.bind_eq_bind, Option.some_bind]
        exact ih _ h

theorem proc_task_poison (pnames : List String) (t2c : List (String × Int))
    (t2ps : List (String × List (String × String)))
    (m : List (String × List WEvent)) (ts : String × List Story) (st : Story)
    (h1 : st.resource_subtype = "section_changed")
    (h2 : parse_section_changed st.text = none) (hmem : st ∈ ts.2) :
    proc_task pnames t2c t2ps m ts = none := by
  unfold proc_task
  cases hc : alookup t2c ts.1 with
  | none => rfl
  | some created =>
    have hf := foldlM_stories_poison pnames created ts.1 st h1 h2 ts.2 m hmem
    simp [hf]

theorem foldlM_tasks_poison (pnames : List String) (t2c : List (String × Int))
    (t2ps : List (String × List (String × String))) (st : Story)
    (h1 : st.resource_subtype = "section_changed")
    (h2 : parse_section_changed st.text = none) :
    ∀ (tss : List (String × List Story)) (m : List (String × List WEvent)),
      (∃ ts ∈ tss, st ∈ ts.2) →
      tss.foldlM (proc_task pnames t2c t2ps) m = none := by
  intro tss
  induction tss with
  | nil => rintro m ⟨ts, hts, _⟩; cases hts
  | cons a rest ih =>
    rintro m ⟨ts, hts, hst⟩
    rcases List.mem_cons.mp hts with h | h
    · subst h
      simp [List.foldlM_cons, proc_task_poison pnames t2c t2ps m ts st h1 h2 hst]
    · cases hr : proc_task pnames t2c t2ps m a
      · simp [List.foldlM_cons, hr]
      · simp only [List.foldlM_cons, hr, Option.bind_eq_bind, Option.some_bind]
        exact ih _ ⟨ts, h, hst⟩

/-- C7: an activity entry whose subtype is not `"section_changed"` is
skipped without error and contributes no events (the story step returns the
event map unchanged), while a `"section_changed"` entry whose text does not
match the transition pattern makes the whole reconstruction fail fatally
(`get_task_events` returns `none`, modelling the `unwrap` panic). -/
theorem claim_c7 (pnames : List String) (created : Int) (gid : String)
    (m : List (String × List WEvent)) (st : Story) :
    (st.resource_subtype ≠ "section_changed" →
      proc_story pnames created gid m st = some m)
    ∧ (∀ (t2c : List (String × Int))
        (t2ps : List (String × List (String × String)))
        (tss : List (String × List Story)) (stories : List Story),
        st.resource_subtype = "section_changed" →
        parse_section_changed st.text = none →
        (gid, stories) ∈ tss → st ∈ stories →
        get_task_events pnames t2c t2ps tss = none) := by
  constructor
  · intro h
    simp [proc_story, h]
  · intro t2c t2ps tss stories h1 h2 hin hst
    exact foldlM_tasks_poison pnames t2c t2ps st h1 h2 tss []
      ⟨(gid, stories), hin, hst⟩

/-- Witness for C7: a `"comment"` story is skipped leaving the map unchanged,
and a `"section_changed"` story with unmatched text `"garbage"` makes
`get_task_events` fail. -/
theorem claim_c7_witness :
    proc_story ["P"] 0 "a" [] ⟨5, "comment", "hi"⟩ = some []
    ∧ get_task_events ["P"] [("a", 0)] [("a", [])]
        [("a", [⟨5, "section_changed", "garbage"⟩])] = none :=
  ⟨(claim_c7 ["P"] 0 "a" [] ⟨5, "comment", "hi"⟩).1 (by decide),
   (claim_c7 ["P"] 0 "a" [] ⟨5, "section_changed", "garbage"⟩).2
     [("a", 0)] [("a", [])] [("a", [⟨5, "section_changed", "garbage"⟩])]
     [⟨5, "section_changed", "garbage"⟩] (by decide) (by decide)
     (by simp) (by simp)⟩

/-! ## Claim C8: the apply step -/

/-- C8: immediately after the apply step the tracked state of the event's
task is exactly `(state, at)` regardless of prior history; and if the task
had a prior tracked state `(old_state, old_at)` the dwell duration
`at - old_at` in seconds is appended to `old_state`'s current-period samples
(the side conditions make the `i64 as u64` cast the identity, as it is for
every in-order event stream). -/
theorem claim_c8 (done : List String) (s : AggState) (e : WEvent) :
    alookup (apply_event done e s).task_latest_state e.task
      = some (e.sname, e.time)
    ∧ (∀ (old_state : String) (old_at : Int),
        alookup s.task_latest_state e.task = some (old_state, old_at) →
        old_at ≤ e.time → e.time - old_at < 2 ^ 64 →
        (apply_event done e s).state_period_dwelltimes
          = pushDwell s.state_period_dwelltimes old_state
              ((e.time - old_at).toNat)) := by
  constructor
  · rw [apply_event_task_latest]
    exact alookup_aset_self _ _ _
  · intro old_state old_at hold hle hlt
    have hmod : (e.time - old_at) % (18446744073709551616 : Int)
        = e.time - old_at := Int.emod_eq_of_lt (by omega) (by omega)
    simp [apply_event, hold, toU64, hmod]

/-- Witness for C8: task `t` tracked in `"S"` since 10 receives an event
entering `"T"` at 25: the tracked state becomes `("T", 25)` and the sample
15 is appended to `"S"`. -/
theorem claim_c8_witness :
    alookup (apply_event ["T"] ⟨25, "t", "T"⟩
        ⟨[("t", ("S", 10))], [], [], 0, 0, 604800, [], []⟩).task_latest_state "t"
      = some ("T", 25)
    ∧ (apply_event ["T"] ⟨25, "t", "T"⟩
        ⟨[("t", ("S", 10))], [], [], 0, 0, 604800, [], []⟩).state_period_dwelltimes
      = pushDwell [] "S" 15 := by
  have h := claim_c8 ["T"] ⟨[("t", ("S", 10))], [], [], 0, 0, 604800, [], []⟩
    ⟨25, "t", "T"⟩
  exact ⟨h.1, (h.2 "S" 10 (by decide) (by decide) (by decide)).trans (by decide)⟩

/-! ## Claim C9: occupancy counts are non-decreasing across snapshots -/

theorem vec_le_refl (v : List Nat) : vec_le v v := fun _ => Nat.le_refl _

theorem vec_le_trans {u v w : List Nat} (h1 : vec_le u v) (h2 : vec_le v w) :
    vec_le u w := fun k => Nat.le_trans (h1 k) (h2 k)

theorem vec_le_map {f g : String → Nat} (h : ∀ k, f k ≤ g k) (cfd : List String) :
    vec_le (cfd.map f) (cfd.map g) := by
  intro k
  rw [List.getD_eq_getElem?_getD, List.getD_eq_getElem?_getD,
    List.getElem?_map, List.getElem?_map]
  cases cfd[k]? with
  | none => exact Nat.le_refl _
  | some a => exact h a

theorem counts_le_boundary (tl : List (String × String × Int))
    (m : List (String × Nat)) (k : String) :
    getCount m k ≤ getCount (boundary_counts tl m) k := by
  rw [getCount_boundary_counts]
  omega

theorem snapinv_roll_step (cfd : List String) (s : AggState) (h : SnapInv cfd s) :
    SnapInv cfd (roll_step cfd s) := by
  obtain ⟨hpw, hdom⟩ := h
  have hmono : ∀ pc ∈ s.cfd_period_counts,
      vec_le pc.cfd_state_counts (emitted_counts cfd s).cfd_state_counts := by
    intro pc hpc
    exact vec_le_trans (hdom pc hpc)
      (vec_le_map (fun k => counts_le_boundary s.task_latest_state s.state_taskcounts k) cfd)
  constructor
  · rw [roll_step_period_counts, List.map_append]
    rw [List.pairwise_append]
    refine ⟨hpw, by simp, ?_⟩
    intro a ha b hb
    simp only [List.map_cons, List.map_nil, List.mem_singleton] at hb
    subst hb
    obtain ⟨pc, hpc, rfl⟩ := List.mem_map.mp ha
    exact hmono pc hpc
  · intro pc hpc
    rw [roll_step_period_counts] at hpc
    rcases List.mem_append.mp hpc with hin | hin
    · refine vec_le_trans (hmono pc hin) ?_
      rw [roll_step_counts]
      exact vec_le_refl _
    · simp only [List.mem_singleton] at hin
      subst hin
      rw [roll_step_counts]
      exact vec_le_refl _

theorem snapinv_apply_event (cfd done : List String) (e : WEvent) (s : AggState)
    (h : SnapInv cfd s) : SnapInv cfd (apply_event done e s) := by
  obtain ⟨hpw, hdom⟩ := h
  exact ⟨hpw, hdom⟩

theorem snapinv_agg_step (cfd done : List String) (s : AggState) (e : WEvent)
    (h : SnapInv cfd s) : SnapInv cfd (agg_step cfd done s e) :=
  snapinv_apply_event cfd done e _
    (rollover_pres cfd e.time s (snapinv_roll_step cfd) h)

theorem snapinv_proc_project (cfd done : List String) (h : Int)
    (events : List WEvent) : SnapInv cfd (proc_project cfd done h events) := by
  suffices hgen : ∀ (l : List WEvent) (s : AggState), SnapInv cfd s →
      SnapInv cfd (l.foldl (agg_step cfd done) s) by
    exact hgen events (init_agg h) ⟨List.Pairwise.nil, by intro pc hpc; cases hpc⟩
  intro l
  induction l with
  | nil => intro s hs; exact hs
  | cons e rest ih =>
    intro s hs
    exact ih _ (snapinv_agg_step cfd done s e hs)

/-- C9 (implicit): the occupancy count reported for any state position is
non-decreasing along the emitted snapshot sequence; mechanically, a rollover
adds the tally of tasks currently tracked in each state onto the
never-cleared `state_taskcounts` map, while only the dwell samples and the
done-count are reset. -/
theorem claim_c9 (cfd done : List String) (h : Int) (events : List WEvent)
    (i j k : Nat) :
    (i ≤ j →
      j < (proc_project cfd done h events).cfd_period_counts.length →
      ((proc_project cfd done h events).cfd_period_counts.getD i
          ⟨0, [], 0⟩).cfd_state_counts.getD k 0
        ≤ ((proc_project cfd done h events).cfd_period_counts.getD j
          ⟨0, [], 0⟩).cfd_state_counts.getD k 0)
    ∧ (∀ (s : AggState) (st : String),
        getCount (roll_step cfd s).state_taskcounts st
          = getCount s.state_taskcounts st + tally s.task_latest_state st)
    ∧ (∀ s : AggState, (roll_step cfd s).state_period_dwelltimes = []
        ∧ (roll_step cfd s).done_count = 0) := by
  refine ⟨?_, ?_, ?_⟩
  · intro hij hj
    rcases Nat.lt_or_ge i j with hlt | hge
    · have hpw := (snapinv_proc_project cfd done h events).1
      set pcs := (proc_project cfd done h events).cfd_period_counts with hpcs
      have hi : i < pcs.length := Nat.lt_of_le_of_lt hij hj
      have hle := List.pairwise_iff_getElem.mp hpw i j (by simpa using hi)
        (by simpa using hj) hlt
      simp only [List.getElem_map] at hle
      rw [List.getD_eq_getElem pcs _ hi, List.getD_eq_getElem pcs _ hj]
      exact hle k
    · have : i = j := Nat.le_antisymm hij hge
      subst this
      exact Nat.le_refl _
  · intro s st
    rw [roll_step_counts]
    exact getCount_boundary_counts s.task_latest_state s.state_taskcounts st
  · intro s
    exact ⟨rfl, rfl⟩

/-- Witness for C9: in the two-snapshot run of the C1 scenario the count of
state `"S"` (position 0) rises from 1 to 2. -/
theorem claim_c9_witness :
    ((proc_project ["S", "T"] [] 345600
        [⟨345600, "y", "S"⟩, ⟨1555200, "y", "T"⟩]).cfd_period_counts.getD 0
          ⟨0, [], 0⟩).cfd_state_counts.getD 0 0
      ≤ ((proc_project ["S", "T"] [] 345600
        [⟨345600, "y", "S"⟩, ⟨1555200, "y", "T"⟩]).cfd_period_counts.getD 1
          ⟨0, [], 0⟩).cfd_state_counts.getD 0 0 :=
  (claim_c9 ["S", "T"] [] 345600 [⟨345600, "y", "S"⟩, ⟨1555200, "y", "T"⟩]
    0 1 0).1 (by decide) (by decide)

/-! ## Claim C10: dwell vectors are never empty; p90 indexing is safe -/

theorem pushDwell_ok {m : List (String × List Nat)} (k : String) (d : Nat)
    (h : ∀ p ∈ m, p.2 ≠ []) : ∀ p ∈ pushDwell m k d, p.2 ≠ [] := by
  intro p hp
  rcases mem_aset hp with rfl | hm
  · simp
  · exact h p hm

theorem boundary_dwell_ok (b : Int) (tl : List (String × String × Int)) :
    ∀ (m : List (String × List Nat)), (∀ p ∈ m, p.2 ≠ []) →
      ∀ p ∈ boundary_dwell b tl m, p.2 ≠ [] := by
  induction tl with
  | nil => intro m h; exact h
  | cons e tl ih =>
    intro m h
    exact ih _ (pushDwell_ok e.2.1 _ h)

theorem dwellok_roll_step (cfd : List String) (s : AggState) (_h : DwellOK s) :
    DwellOK (roll_step cfd s) := by
  intro p hp
  rw [roll_step_dwell] at hp
  cases hp

theorem dwellok_apply_event (done : List String) (e : WEvent) (s : AggState)
    (h : DwellOK s) : DwellOK (apply_event done e s) := by
  intro p hp
  simp only [apply_event] at hp
  rcases hold : alookup s.task_latest_state e.task with _ | ⟨old_state, old_at⟩
  · rw [hold] at hp
    exact h p hp
  · rw [hold] at hp
    exact pushDwell_ok old_state _ h p hp

theorem dwellok_agg_step (cfd done : List String) (s : AggState) (e : WEvent)
    (h : DwellOK s) : DwellOK (agg_step cfd done s e) :=
  dwellok_apply_event done e _
    (rollover_pres cfd e.time s (fun s hs => dwellok_roll_step cfd s hs) h)

theorem dwellok_proc_project (cfd done : List String) (h : Int)
    (events : List WEvent) : DwellOK (proc_project cfd done h events) := by
  suffices hgen : ∀ (l : List WEvent) (s : AggState), DwellOK s →
      DwellOK (l.foldl (agg_step cfd done) s) by
    exact hgen events (init_agg h) (by intro p hp; cases hp)
  intro l
  induction l with
  | nil => intro s hs; exact hs
  | cons e rest ih =>
    intro s hs
    exact ih _ (dwellok_agg_step cfd done s e hs)

/-- C10 (implicit): at every point of the aggregation (after any prefix of
the event stream) every vector in the dwell-time map is non-empty; the
boundary-sample pass preserves this; and on any non-empty vector the p90
index `9 * (n - 1) / 10` is strictly in bounds, so the indexing of `p90`
never goes out of bounds (its `Nat` subtraction cannot underflow, and the
element it returns really is the list entry at that index). -/
theorem claim_c10 (cfd done : List String) (h : Int) (events : List WEvent)
    (n : Nat) :
    (∀ p ∈ (proc_project cfd done h (events.take n)).state_period_dwelltimes,
      p.2 ≠ [])
    ∧ (∀ (tl : List (String × String × Int)) (b : Int)
        (m : List (String × List Nat)), (∀ p ∈ m, p.2 ≠ []) →
        ∀ p ∈ boundary_dwell b tl m, p.2 ≠ [])
    ∧ (∀ v : List Nat, v ≠ [] →
        9 * (v.length - 1) / 10 < v.length
        ∧ v[9 * (v.length - 1) / 10]? = some (p90 v)) := by
  refine ⟨dwellok_proc_project cfd done h (events.take n),
    fun tl b m hm => boundary_dwell_ok b tl m hm, ?_⟩
  intro v hv
  have hn : 1 ≤ v.length := List.length_pos.mpr hv
  have hlt : 9 * (v.length - 1) / 10 < v.length := by omega
  refine ⟨hlt, ?_⟩
  rw [List.getElem?_eq_getElem hlt]
  unfold p90
  rw [List.getD_eq_getElem v _ hlt]

/-- Witness for C10: a run whose dwell map holds the entry `("S", [54400])`
(non-empty as required), and the p90 index bound at the one-sample list. -/
theorem claim_c10_witness :
    (("S", [54400]) :
        String × List Nat).2 ≠ []
    ∧ 9 * (([5] : List Nat).length - 1) / 10 < ([5] : List Nat).length
    ∧ ([5] : List Nat)[9 * (([5] : List Nat).length - 1) / 10]? = some (p90 [5]) := by
  have h := claim_c10 ["S"] [] 345600 [⟨345600, "z", "S"⟩, ⟨400000, "z", "T"⟩] 2
  refine ⟨h.1 ("S", [54400]) (by decide), (h.2.2 [5] (by decide)).1,
    (h.2.2 [5] (by decide)).2⟩

/-! ## Claim C2 (amended): what a multi-boundary burst actually emits -/

theorem crossings_succ (t next : Int) (h : next ≤ t) :
    crossings t next = crossings t (next + week) + 1 := by
  unfold crossings week
  by_cases h2 : t < next + 604800
  · rw [if_neg (not_lt.mpr h), if_pos h2]
    have hz : (t - next) / 604800 = 0 :=
      Int.ediv_eq_zero_of_lt (by omega) (by omega)
    rw [hz]
    rfl
  · rw [if_neg (not_lt.mpr h), if_neg h2]
    have h5 : t - (next + 604800) = t - next - 604800 := by ring
    have h6 : (t - next - 604800 + 1 * 604800) / 604800
        = (t - next - 604800) / 604800 + 1 :=
      Int.add_mul_ediv_right _ _ (by norm_num : (604800 : Int) ≠ 0)
    have h7 : t - next - 604800 + 1 * 604800 = t - next := by ring
    rw [h7] at h6
    have h4 : 0 ≤ (t - next - 604800) / 604800 :=
      Int.ediv_nonneg (by omega) (by norm_num)
    rw [h5, h6]
    omega

theorem rollover_len (c : List String) : ∀ (n : Nat) (t : Int) (s : AggState),
    (t + week - s.start_of_next_period).toNat ≤ n →
    (rollover c t s).cfd_period_counts.length
        = s.cfd_period_counts.length + crossings t s.start_of_next_period
    ∧ (rollover c t s).cfd_period_durations.length
        = s.cfd_period_durations.length + crossings t s.start_of_next_period := by
  intro n
  induction n with
  | zero =>
    intro t s h
    have hlt : t < s.start_of_next_period := by
      simp only [week] at h; omega
    rw [rollover_eq, if_neg (not_le.mpr hlt)]
    simp [crossings, hlt]
  | succ n ih =>
    intro t s h
    by_cases hc : s.start_of_next_period ≤ t
    · rw [rollover_eq, if_pos hc]
      have hbound : (t + week - (roll_step c s).start_of_next_period).toNat ≤ n := by
        simp only [roll_step_start_of_next, week] at *; omega
      have hih := ih t (roll_step c s) hbound
      rw [crossings_succ t s.start_of_next_period hc]
      constructor
      · rw [hih.1, roll_step_period_counts, roll_step_start_of_next,
          List.length_append]
        simp only [List.length_singleton]
        omega
      · rw [hih.2, roll_step_period_durations, roll_step_start_of_next,
          List.length_append]
        simp only [List.length_singleton]
        omega
    · rw [rollover_eq, if_neg hc]
      simp [crossings, not_le.mp hc]

theorem boundary_samples_length (tl : List (String × String × Int)) (st : String)
    (b : Int) : (boundary_samples tl st b).length = tally tl st := by
  simp [boundary_samples, tally]

/-- When the dwell map is empty at the start of a boundary iteration — as it
is at every crossing after the first one of a burst — the emitted durations
come entirely from the boundary-synthesized samples: 0 exactly for states
with no tracked task, otherwise the p90 of the open spans. -/
theorem emitted_durations_of_empty_dwell (cfd : List String) (s : AggState)
    (hd : s.state_period_dwelltimes = []) :
    emitted_durations cfd s
      = ⟨s.start_of_period, cfd.map (fun st =>
          if tally s.task_latest_state st = 0 then 0
          else p90 (sortNat (boundary_samples s.task_latest_state st
              s.start_of_next_period)))⟩ := by
  unfold emitted_durations
  rw [hd]
  congr 1
  apply List.map_congr_left
  intro k _
  cases hk : alookup (boundary_dwell s.start_of_next_period s.task_latest_state []) k with
  | none =>
    have hsamp := (alookup_boundary_dwell_eq_none s.start_of_next_period
      s.task_latest_state [] k).mp hk
    have : tally s.task_latest_state k = 0 := by
      rw [← boundary_samples_length s.task_latest_state k s.start_of_next_period,
        hsamp.2]
      rfl
    rw [if_pos this]
  | some v =>
    have hv : v = boundary_samples s.task_latest_state k s.start_of_next_period := by
      have := getD_boundary_dwell s.start_of_next_period s.task_latest_state [] k
      rw [hk] at this
      simpa [alookup] using this
    have hne : ¬ tally s.task_latest_state k = 0 := by
      intro h0
      have : boundary_samples s.task_latest_state k s.start_of_next_period = [] :=
        List.eq_nil_of_length_eq_zero (by rw [boundary_samples_length]; exact h0)
      have : alookup (boundary_dwell s.start_of_next_period s.task_latest_state []) k
          = none :=
        (alookup_boundary_dwell_eq_none _ _ _ _).mpr ⟨rfl, this⟩
      rw [hk] at this
      cases this
    rw [if_neg hne, hv]

/-- C2 (amended): each boundary crossing of a burst emits exactly one
snapshot/duration pair (`crossings` of them in total); each crossing adds the
per-state tally of tracked tasks onto the never-cleared occupancy counters
(so the intervening snapshots are *not* identical to the first); and at any
crossing entered with an empty dwell map — i.e. every crossing after the
first — the emitted durations are the p90 of the boundary-synthesized open
spans, 0 exactly for states with no tracked task (not 0 everywhere). -/
theorem claim_c2_amended (cfd : List String) (s : AggState) (t : Int) :
    ((rollover cfd t s).cfd_period_counts.length
        = s.cfd_period_counts.length + crossings t s.start_of_next_period
      ∧ (rollover cfd t s).cfd_period_durations.length
        = s.cfd_period_durations.length + crossings t s.start_of_next_period)
    ∧ (∀ st, getCount (roll_step cfd s).state_taskcounts st
        = getCount s.state_taskcounts st + tally s.task_latest_state st)
    ∧ (s.state_period_dwelltimes = [] →
        (roll_step cfd s).cfd_period_durations
          = s.cfd_period_durations
            ++ [⟨s.start_of_period, cfd.map (fun st =>
                if tally s.task_latest_state st = 0 then 0
                else p90 (sortNat (boundary_samples s.task_latest_state st
                    s.start_of_next_period)))⟩]) := by
  refine ⟨rollover_len cfd (t + week - s.start_of_next_period).toNat t s
      (Nat.le_refl _), ?_, ?_⟩
  · intro st
    rw [roll_step_counts]
    exact getCount_boundary_counts s.task_latest_state s.state_taskcounts st
  · intro hd
    rw [roll_step_period_durations, emitted_durations_of_empty_dwell cfd s hd]

/-- Witness for the amended C2 at `c2state` with an event three weeks out:
three crossings, counter increment by the tally, and boundary-span
durations. -/
theorem claim_c2_amended_witness :
    ((rollover ["S"] 2160000 c2state).cfd_period_counts.length
        = c2state.cfd_period_counts.length
          + crossings 2160000 c2state.start_of_next_period
      ∧ (rollover ["S"] 2160000 c2state).cfd_period_durations.length
        = c2state.cfd_period_durations.length
          + crossings 2160000 c2state.start_of_next_period)
    ∧ getCount (roll_step ["S"] c2state).state_taskcounts "S"
        = getCount c2state.state_taskcounts "S"
          + tally c2state.task_latest_state "S"
    ∧ (roll_step ["S"] c2state).cfd_period_durations
        = c2state.cfd_period_durations
          ++ [⟨c2state.start_of_period, ["S"].map (fun st =>
              if tally c2state.task_latest_state st = 0 then 0
              else p90 (sortNat (boundary_samples c2state.task_latest_state st
                  c2state.start_of_next_period)))⟩] := by
  have h := claim_c2_amended ["S"] c2state 2160000
  exact ⟨h.1, h.2.1 "S", h.2.2 rfl⟩
